import Mathlib

set_option maxRecDepth 40000

/-!
Verification of the iColor crate (src/lib.rs, src/utils.rs) against its
specification.

Modelling conventions:
* Rust `u8` / `u32` channel values are `ℕ` (their ranges are tracked by
  hypotheses where needed).
* Rust `f32` values are modelled as exact rationals `ℚ` together with an
  explicit IEEE-754 binary32 round-to-nearest-even function `round32`:
  every Rust floating-point operation `a ⊕ b` is modelled as
  `round32 (a ⊕ b)` on the exact rationals, which is the IEEE semantics of
  binary32 arithmetic for normal and subnormal results (overflow to
  infinity and NaN propagation are outside the range of any value reached
  by the claims and are not modelled).
* Rust strings are modelled as `List Char`; the source only ever matches
  ASCII grammars, for which Rust byte length and character count agree.

The helpers `qabs`, `qmax`, `qmin`, `zmax`, `qfloor`, `pow2z` are if-based
computable versions of `|·|`, `max`, `min`, `⌊·⌋` and `2 ^ (· : ℤ)` so that
concrete values reduce inside `decide`.
-/

/-- Absolute value on `ℚ` (kernel-reducible). -/
def qabs (q : ℚ) : ℚ := if q < 0 then -q else q

/-- Maximum on `ℚ` (kernel-reducible); also models Rust `f32::max`. -/
def qmax (a b : ℚ) : ℚ := if a ≤ b then b else a

/-- Minimum on `ℚ` (kernel-reducible); also models Rust `f32::min`. -/
def qmin (a b : ℚ) : ℚ := if a ≤ b then a else b

/-- Maximum on `ℤ` (kernel-reducible). -/
def zmax (a b : ℤ) : ℤ := if a ≤ b then b else a

/-- Minimum on `ℤ` (kernel-reducible). -/
def zmin (a b : ℤ) : ℤ := if a ≤ b then a else b

/-- Floor of a rational as an integer (kernel-reducible). -/
def qfloor (q : ℚ) : ℤ := Int.fdiv q.num q.den

/-- `2 ^ e` in `ℚ` for an integer exponent (kernel-reducible). -/
def pow2z (e : ℤ) : ℚ :=
  if 0 ≤ e then ((2 ^ e.toNat : ℕ) : ℚ) else 1 / ((2 ^ (-e).toNat : ℕ) : ℚ)

/-- Round a rational to the nearest integer, ties to even
(the IEEE-754 default rounding applied to significands, and also the
rounding Rust `{:.0}` formatting applies to the exact decimal value). -/
def rne (q : ℚ) : ℤ :=
  let n := qfloor q
  let f := q - (n : ℚ)
  if f < 1/2 then n else if 1/2 < f then n + 1 else if n % 2 = 0 then n else n + 1

/-- Round a rational to the nearest integer, ties away from zero
(the semantics of Rust `f32::round`). -/
def roundHalfAway (q : ℚ) : ℤ :=
  if 0 ≤ q then (if q - (qfloor q : ℚ) < 1/2 then qfloor q else qfloor q + 1)
  else -(if -q - (qfloor (-q) : ℚ) < 1/2 then qfloor (-q) else qfloor (-q) + 1)

/-- Scan upward for the binary exponent: first `e ≥ e₀` with `q < 2^(e+1)`,
maintaining `pw = 2^e`. -/
def f32expUp : ℕ → ℤ → ℚ → ℚ → ℤ
  | 0, e, _, _ => e
  | n+1, e, pw, q => if q < pw * 2 then e else f32expUp n (e+1) (pw*2) q

/-- Scan downward for the binary exponent: first `e ≤ e₀` with `2^e ≤ q`,
maintaining `pw = 2^e`. -/
def f32expDown : ℕ → ℤ → ℚ → ℚ → ℤ
  | 0, e, _, _ => e
  | n+1, e, pw, q => if pw ≤ q then e else f32expDown n (e-1) (pw/2) q

/-- `⌊log₂ q⌋` for positive `q` (fuel large enough for the whole binary32
range including subnormals). -/
def f32exp (q : ℚ) : ℤ :=
  if 1 ≤ q then f32expUp 160 0 1 q else f32expDown 160 (-1) (1/2) q

/-- IEEE-754 binary32 rounding (round to nearest, ties to even) of an exact
rational: 24-bit significand, exponent clamped below at `-126` so that
subnormal results are rounded to a multiple of `2^-149`. -/
def round32 (q : ℚ) : ℚ :=
  if q = 0 then 0
  else
    let a := qabs q
    let e := zmax (f32exp a) (-126)
    let p : ℚ := pow2z (23 - e)
    let r := (rne (a * p) : ℚ) / p
    if q < 0 then -r else r

/-- Rust `f32` addition. -/
def fadd (a b : ℚ) : ℚ := round32 (a + b)

/-- Rust `f32` subtraction. -/
def fsub (a b : ℚ) : ℚ := round32 (a - b)

/-- Rust `f32` multiplication. -/
def fmul (a b : ℚ) : ℚ := round32 (a * b)

/-- Rust `f32` division. -/
def fdiv (a b : ℚ) : ℚ := round32 (a / b)

/-- Truncation toward zero (Rust float→int casts, and the quotient used by
the float remainder operator). -/
def qtrunc (q : ℚ) : ℤ := if q < 0 then -(qfloor (-q)) else qfloor q

/-- Rust `f32` `%` operator: remainder with the sign of the dividend.  The
IEEE remainder of two representable values is exactly representable, so no
rounding step is applied. -/
def frem (a b : ℚ) : ℚ := a - b * (qtrunc (a / b) : ℚ)

instance {ε α : Type} [DecidableEq ε] [DecidableEq α] : DecidableEq (Except ε α) :=
  fun x y =>
    match x, y with
    | .ok a, .ok b =>
      match decEq a b with
      | isTrue h => isTrue (by rw [h])
      | isFalse h => isFalse (by intro hh; cases hh; exact h rfl)
    | .error a, .error b =>
      match decEq a b with
      | isTrue h => isTrue (by rw [h])
      | isFalse h => isFalse (by intro hh; cases hh; exact h rfl)
    | .ok _, .error _ => isFalse (by intro hh; cases hh)
    | .error _, .ok _ => isFalse (by intro hh; cases hh)

/-- `struct Color(u8, u8, u8, f32)` (src/lib.rs:9): three byte channels and a
float alpha. -/
structure Color where
  r : ℕ
  g : ℕ
  b : ℕ
  a : ℚ
deriving DecidableEq

/-- `enum ColorError { Format, Value }` (src/lib.rs:12-15). -/
inductive ColorError where
  | Format
  | Value
deriving DecidableEq

/-- Value of a hexadecimal digit character, as accepted by
`u8::from_str_radix(_, 16)`. -/
def hexDigitVal (c : Char) : Option ℕ :=
  let n := c.toNat
  if 48 ≤ n ∧ n ≤ 57 then some (n - 48)
  else if 97 ≤ n ∧ n ≤ 102 then some (n - 87)
  else if 65 ≤ n ∧ n ≤ 70 then some (n - 55)
  else none

/-- ASCII decimal digit test (regex `\d`). -/
def isDigitC (c : Char) : Bool := decide (48 ≤ c.toNat) && decide (c.toNat ≤ 57)

/-- ASCII word character test (regex `\w`; the source only ever feeds ASCII
grammars through these regexes). -/
def isWordC (c : Char) : Bool := c.isAlphanum || c = '_'

/-- Numeric value of a digit character. -/
def digitVal (c : Char) : ℕ := c.toNat - 48

/-- Value of a decimal digit string. -/
def decVal (s : List Char) : ℕ := s.foldl (fun acc c => 10 * acc + digitVal c) 0

/-- `utils::match_to_num` (src/utils.rs:3-9): duplicate the captured text,
take its first two characters and hex-decode them as a `u8`. -/
def match_to_num (s : List Char) : Option ℕ :=
  match (s ++ s).take 2 with
  | [c1, c2] =>
    match hexDigitVal c1, hexDigitVal c2 with
    | some h1, some h2 => some (16 * h1 + h2)
    | _, _ => none
  | _ => none

/-- `utils::match_to_num2` (src/utils.rs:11-13): `s.parse::<u8>()`, which on
the digit-only tokens the regexes capture succeeds exactly when the decimal
value fits in a byte (checked arithmetic fails on overflow). -/
def match_to_num2 (s : List Char) : Option ℕ :=
  if s ≠ [] ∧ s.all isDigitC ∧ decVal s ≤ 255 then some (decVal s) else none

/-- `s.parse::<u32>()` on a digit-only token. -/
def parseU32 (s : List Char) : Option ℕ :=
  if s ≠ [] ∧ s.all isDigitC ∧ decVal s ≤ 4294967295 then some (decVal s) else none

/-- `s.parse::<f32>()` (correctly rounded) on tokens of the shapes
`\d+` or `\d+.\d+` or `0.\d+` captured by the regexes. -/
def parseF32 (s : List Char) : Option ℚ :=
  let ip := s.takeWhile (fun c => c ≠ '.')
  match s.dropWhile (fun c => c ≠ '.') with
  | [] => if ip ≠ [] ∧ ip.all isDigitC then some (round32 (decVal ip)) else none
  | _ :: fp =>
    if ip ≠ [] ∧ ip.all isDigitC ∧ fp ≠ [] ∧ fp.all isDigitC then
      some (round32 ((decVal ip : ℚ) + (decVal fp : ℚ) / ((10 ^ fp.length : ℕ) : ℚ)))
    else none

/-- `utils::calc_rgb_with_alpha` (src/utils.rs:15-17):
`v as f32 * alpha + 255.0 * (1.0 - alpha)` in `f32` arithmetic. -/
def calc_rgb_with_alpha (v : ℕ) (alpha : ℚ) : ℚ :=
  fadd (fmul (v : ℚ) alpha) (fmul 255 (fsub 1 alpha))

/-- `utils::is_valid_num` (src/utils.rs:19-21): `(0.0..=1.0).contains(v)`. -/
def is_valid_num (v : ℚ) : Prop := 0 ≤ v ∧ v ≤ 1

instance (v : ℚ) : Decidable (is_valid_num v) :=
  inferInstanceAs (Decidable (_ ∧ _))

/-- Rust `f32 as u8` cast: truncate toward zero and saturate to `[0, 255]`. -/
def toU8 (q : ℚ) : ℕ := (zmin 255 (qtrunc q)).toNat

/-- Match a literal pattern at the front of the input, returning the rest
(used both for `starts_with` and for the literal parts of the anchored
regexes). -/
def chomp : List Char → List Char → Option (List Char)
  | [], l => some l
  | _ :: _, [] => none
  | p :: ps, c :: cs => if c = p then chomp ps cs else none

/-- Rust `str::starts_with`. -/
def startsW (p l : List Char) : Bool := (chomp p l).isSome

/-- Regex `(\d+)`: a nonempty maximal run of digits, with the rest of the
input (a following `,`, `%` or `)` is never a digit, so the greedy match is
unique). -/
def num1 (l : List Char) : Option (List Char × List Char) :=
  match l.takeWhile isDigitC with
  | [] => none
  | d => some (d, l.dropWhile isDigitC)

/-- Expect one literal character. -/
def expectC (ch : Char) : List Char → Option (List Char)
  | [] => none
  | c :: cs => if c = ch then some cs else none

/-- Regex `(\d+(\.\d+)?)`: digits with an optional fractional part; the
optional group backtracks when no digit follows the dot. -/
def floatTok (l : List Char) : Option (List Char × List Char) :=
  match num1 l with
  | none => none
  | some (d, rest) =>
    match rest with
    | '.' :: r2 =>
      (match num1 r2 with
       | some (f, r3) => some (d ++ '.' :: f, r3)
       | none => some (d, rest))
    | _ => some (d, rest)

/-- Captures of `^rgb\((\d+),(\d+),(\d+)\)$` (src/lib.rs:23). -/
def rgbCaps (l : List Char) : Option (List Char × List Char × List Char) :=
  match chomp ['r', 'g', 'b', '('] l with
  | none => none
  | some l1 =>
    match num1 l1 with
    | none => none
    | some (t1, l2) =>
      match expectC ',' l2 with
      | none => none
      | some l3 =>
        match num1 l3 with
        | none => none
        | some (t2, l4) =>
          match expectC ',' l4 with
          | none => none
          | some l5 =>
            match num1 l5 with
            | none => none
            | some (t3, l6) =>
              match expectC ')' l6 with
              | none => none
              | some l7 => if l7 = [] then some (t1, t2, t3) else none

/-- Captures of `^rgba\((\d+),(\d+),(\d+),(\d+(\.\d+)?)\)$` (src/lib.rs:25). -/
def rgbaCaps (l : List Char) :
    Option (List Char × List Char × List Char × List Char) := do
  let l1 ← chomp ['r', 'g', 'b', 'a', '('] l
  let (t1, l2) ← num1 l1
  let l3 ← expectC ',' l2
  let (t2, l4) ← num1 l3
  let l5 ← expectC ',' l4
  let (t3, l6) ← num1 l5
  let l7 ← expectC ',' l6
  let (t4, l8) ← floatTok l7
  let l9 ← expectC ')' l8
  if l9 = [] then some (t1, t2, t3, t4) else none

/-- Captures of `^hsl\((\d+),(\d+)%,(\d+)%\)$` (src/lib.rs:26). -/
def hslCaps (l : List Char) : Option (List Char × List Char × List Char) := do
  let l1 ← chomp ['h', 's', 'l', '('] l
  let (t1, l2) ← num1 l1
  let l3 ← expectC ',' l2
  let (t2, l4) ← num1 l3
  let l5 ← expectC '%' l4
  let l6 ← expectC ',' l5
  let (t3, l7) ← num1 l6
  let l8 ← expectC '%' l7
  let l9 ← expectC ')' l8
  if l9 = [] then some (t1, t2, t3) else none

/-- Captures of `^hsla\((\d+),(\d+)%,(\d+)%,(0\.\d+)\)$` (src/lib.rs:27). -/
def hslaCaps (l : List Char) :
    Option (List Char × List Char × List Char × List Char) := do
  let l1 ← chomp ['h', 's', 'l', 'a', '('] l
  let (t1, l2) ← num1 l1
  let l3 ← expectC ',' l2
  let (t2, l4) ← num1 l3
  let l5 ← expectC '%' l4
  let l6 ← expectC ',' l5
  let (t3, l7) ← num1 l6
  let l8 ← expectC '%' l7
  let l9 ← expectC ',' l8
  let l10 ← expectC '0' l9
  let l11 ← expectC '.' l10
  let (f, l12) ← num1 l11
  let l13 ← expectC ')' l12
  if l13 = [] then some (t1, t2, t3, '0' :: '.' :: f) else none

/-- Captures of `^hsv\((\d+),(\d+)%,(\d+)%\)$` (src/lib.rs:29). -/
def hsvCaps (l : List Char) : Option (List Char × List Char × List Char) := do
  let l1 ← chomp ['h', 's', 'v', '('] l
  let (t1, l2) ← num1 l1
  let l3 ← expectC ',' l2
  let (t2, l4) ← num1 l3
  let l5 ← expectC '%' l4
  let l6 ← expectC ',' l5
  let (t3, l7) ← num1 l6
  let l8 ← expectC '%' l7
  let l9 ← expectC ')' l8
  if l9 = [] then some (t1, t2, t3) else none

/-- Captures of `^cmyk\((\d+),(\d+),(\d+),(\d+)\)$` (src/lib.rs:28). -/
def cmykCaps (l : List Char) :
    Option (List Char × List Char × List Char × List Char) := do
  let l1 ← chomp ['c', 'm', 'y', 'k', '('] l
  let (t1, l2) ← num1 l1
  let l3 ← expectC ',' l2
  let (t2, l4) ← num1 l3
  let l5 ← expectC ',' l4
  let (t3, l6) ← num1 l5
  let l7 ← expectC ',' l6
  let (t4, l8) ← num1 l7
  let l9 ← expectC ')' l8
  if l9 = [] then some (t1, t2, t3, t4) else none

/-- Captures of `^#(\w{2})(\w{2})(\w{2})$` (src/lib.rs:19). -/
def hexCaps (l : List Char) : Option (List Char × List Char × List Char) :=
  match l with
  | ['#', a1, a2, b1, b2, c1, c2] =>
    if isWordC a1 && isWordC a2 && isWordC b1 && isWordC b2 && isWordC c1 && isWordC c2
    then some ([a1, a2], [b1, b2], [c1, c2]) else none
  | _ => none

/-- Captures of `^#(\w)(\w)(\w)$` (src/lib.rs:22). -/
def shortHexCaps (l : List Char) : Option (List Char × List Char × List Char) :=
  match l with
  | ['#', x, y, z] =>
    if isWordC x && isWordC y && isWordC z then some ([x], [y], [z]) else none
  | _ => none

/-- Captures of `^#(\w{2})(\w{2})(\w{2})(\w{2})$` (src/lib.rs:20-21). -/
def hexAlphaCaps (l : List Char) :
    Option (List Char × List Char × List Char × List Char) :=
  match l with
  | ['#', a1, a2, b1, b2, c1, c2, d1, d2] =>
    if isWordC a1 && isWordC a2 && isWordC b1 && isWordC b2 && isWordC c1 &&
       isWordC c2 && isWordC d1 && isWordC d2
    then some ([a1, a2], [b1, b2], [c1, c2], [d1, d2]) else none
  | _ => none

/-- `Color::from_hex` (src/lib.rs:107-121): long form first, short form as
fallback. -/
def Color.from_hex (l : List Char) : Except ColorError Color :=
  match (hexCaps l).orElse (fun _ => shortHexCaps l) with
  | some (g1, g2, g3) =>
    match match_to_num g1, match_to_num g2, match_to_num g3 with
    | some r, some g, some b => .ok ⟨r, g, b, 1⟩
    | _, _, _ => .error .Format
  | none => .error .Format

/-- `Color::from_hex_alpha` (src/lib.rs:132-145).  Note the source decodes
the alpha pair with the decimal `match_to_num2` and then computes
`(v / 255_u8) as f32` — a `u8` integer division. -/
def Color.from_hex_alpha (l : List Char) : Except ColorError Color :=
  match hexAlphaCaps l with
  | some (g1, g2, g3, g4) =>
    match match_to_num g1, match_to_num g2, match_to_num g3,
          (match_to_num2 g4).map (fun v => ((v / 255 : ℕ) : ℚ)) with
    | some r, some g, some b, some a => .ok ⟨r, g, b, a⟩
    | _, _, _, _ => .error .Format
  | none => .error .Format

/-- `Color::from_rgb_str` (src/lib.rs:156-167). -/
def Color.from_rgb_str (l : List Char) : Except ColorError Color :=
  match rgbCaps l with
  | some (t1, t2, t3) =>
    match match_to_num2 t1, match_to_num2 t2, match_to_num2 t3 with
    | some r, some g, some b => .ok ⟨r, g, b, 1⟩
    | _, _, _ => .error .Format
  | none => .error .Format

/-- `Color::from_rgba_str` (src/lib.rs:178-190).  Note the source computes
the alpha as `cps.get(3).and_then(|v| v.as_str().parse::<f32>().ok())` —
capture group 3 (the blue token), not group 4 (the float token, which is
captured and then never used). -/
def Color.from_rgba_str (l : List Char) : Except ColorError Color :=
  match rgbaCaps l with
  | some (t1, t2, t3, _t4) =>
    match match_to_num2 t1, match_to_num2 t2, match_to_num2 t3, parseF32 t3 with
    | some r, some g, some b, some a => .ok ⟨r, g, b, a⟩
    | _, _, _, _ => .error .Format
  | none => .error .Format

/-- `Color::set_alpha` (src/lib.rs:673-676). -/
def Color.set_alpha (c : Color) (alpha : ℚ) : Color := { c with a := alpha }

/-- `Color::from_hsl` (src/lib.rs:293-313).  `h as f32` is exact because the
guard has already established `h < 360`. -/
def Color.from_hsl (h : ℕ) (s l : ℚ) : Except ColorError Color :=
  if ¬is_valid_num s ∨ ¬is_valid_num l ∨ ¬(h < 360) then .error .Value
  else
    let c := fmul (fsub 1 (qabs (fsub (fmul l 2) 1))) s
    let x := fmul c (fsub 1 (qabs (fsub (frem (fdiv (h : ℚ) 60) 2) 1)))
    let m := fsub l (fdiv c 2)
    let rgb : ℚ × ℚ × ℚ :=
      if h < 60 then (c, x, 0)
      else if 60 ≤ h ∧ h < 120 then (x, c, 0)
      else if 120 ≤ h ∧ h < 180 then (0, c, x)
      else if 180 ≤ h ∧ h < 240 then (0, x, c)
      else if 240 ≤ h ∧ h < 300 then (x, 0, c)
      else if 300 ≤ h ∧ h < 360 then (c, 0, x)
      else (0, 0, 0)
    .ok ⟨toU8 (fmul (fadd rgb.1 m) 255), toU8 (fmul (fadd rgb.2.1 m) 255),
         toU8 (fmul (fadd rgb.2.2 m) 255), 1⟩

/-- `Color::from_hsla` (src/lib.rs:327-331): build from HSL, then apply the
alpha with `set_alpha`, unchecked. -/
def Color.from_hsla (h : ℕ) (s l a : ℚ) : Except ColorError Color :=
  match Color.from_hsl h s l with
  | .error e => .error e
  | .ok c => .ok (c.set_alpha a)

/-- `Color::from_rgb` (src/lib.rs:344-346). -/
def Color.from_rgb (r g b : ℕ) : Except ColorError Color := .ok ⟨r, g, b, 1⟩

/-- `Color::from_rgba` (src/lib.rs:360-366). -/
def Color.from_rgba (r g b : ℕ) (a : ℚ) : Except ColorError Color :=
  if ¬is_valid_num a then .error .Value else .ok ⟨r, g, b, a⟩

/-- `Color::from_cmyk` (src/lib.rs:380-393). -/
def Color.from_cmyk (c m y k : ℚ) : Except ColorError Color :=
  if ¬is_valid_num c ∨ ¬is_valid_num m ∨ ¬is_valid_num y ∨ ¬is_valid_num k then
    .error .Value
  else
    let t := fsub 1 k
    .ok ⟨toU8 (fmul (fmul (fsub 1 c) t) 255), toU8 (fmul (fmul (fsub 1 m) t) 255),
         toU8 (fmul (fmul (fsub 1 y) t) 255), 1⟩

/-- `Color::from_hsv` (src/lib.rs:406-426). -/
def Color.from_hsv (h : ℕ) (s v : ℚ) : Except ColorError Color :=
  if ¬is_valid_num s ∨ ¬is_valid_num v ∨ ¬(h < 360) then .error .Value
  else
    let c := fmul v s
    let x := fmul c (fsub 1 (qabs (fsub (frem (fdiv (h : ℚ) 60) 2) 1)))
    let m := fsub v c
    let rgb : ℚ × ℚ × ℚ :=
      if h < 60 then (c, x, 0)
      else if 60 ≤ h ∧ h < 120 then (x, c, 0)
      else if 120 ≤ h ∧ h < 180 then (0, c, x)
      else if 180 ≤ h ∧ h < 240 then (0, x, c)
      else if 240 ≤ h ∧ h < 300 then (x, 0, c)
      else if 300 ≤ h ∧ h < 360 then (c, 0, x)
      else (0, 0, 0)
    .ok ⟨toU8 (fmul (fadd rgb.1 m) 255), toU8 (fmul (fadd rgb.2.1 m) 255),
         toU8 (fmul (fadd rgb.2.2 m) 255), 1⟩

/-- `Color::from_hsl_str` (src/lib.rs:201-212); `s as f32` and `l as f32`
round, hence the `round32` casts. -/
def Color.from_hsl_str (l : List Char) : Except ColorError Color :=
  match hslCaps l with
  | some (t1, t2, t3) =>
    match parseU32 t1, parseU32 t2, parseU32 t3 with
    | some h, some s, some lt =>
      Color.from_hsl h (fdiv (round32 (s : ℚ)) 100) (fdiv (round32 (lt : ℚ)) 100)
    | _, _, _ => .error .Format
  | none => .error .Format

/-- `Color::from_hsla_str` (src/lib.rs:223-235). -/
def Color.from_hsla_str (l : List Char) : Except ColorError Color :=
  match hslaCaps l with
  | some (t1, t2, t3, t4) =>
    match parseU32 t1, parseU32 t2, parseU32 t3, parseF32 t4 with
    | some h, some s, some lt, some a =>
      Color.from_hsla h (fdiv (round32 (s : ℚ)) 100) (fdiv (round32 (lt : ℚ)) 100) a
    | _, _, _, _ => .error .Format
  | none => .error .Format

/-- `Color::from_hsv_str` (src/lib.rs:246-257). -/
def Color.from_hsv_str (l : List Char) : Except ColorError Color :=
  match hsvCaps l with
  | some (t1, t2, t3) =>
    match parseU32 t1, parseU32 t2, parseU32 t3 with
    | some h, some s, some v =>
      Color.from_hsv h (fdiv (round32 (s : ℚ)) 100) (fdiv (round32 (v : ℚ)) 100)
    | _, _, _ => .error .Format
  | none => .error .Format

/-- `Color::from_cmyk_str` (src/lib.rs:268-280). -/
def Color.from_cmyk_str (l : List Char) : Except ColorError Color :=
  match cmykCaps l with
  | some (t1, t2, t3, t4) =>
    match parseU32 t1, parseU32 t2, parseU32 t3, parseU32 t4 with
    | some c, some m, some y, some k =>
      Color.from_cmyk (fdiv (round32 (c : ℚ)) 100) (fdiv (round32 (m : ℚ)) 100)
        (fdiv (round32 (y : ℚ)) 100) (fdiv (round32 (k : ℚ)) 100)
    | _, _, _, _ => .error .Format
  | none => .error .Format

/-- `Color::from` (src/lib.rs:51-96): dispatch on a leading `#` by total
length (4/7 → hex, 9 → hex+alpha; other lengths fall through), then strip
spaces and dispatch on the scheme name.  (`from` is a Lean keyword, hence
the name `fromStr`.) -/
def Color.fromStr (l : List Char) : Except ColorError Color :=
  if l.head? = some '#' ∧ (l.length = 4 ∨ l.length = 7) then Color.from_hex l
  else if l.head? = some '#' ∧ l.length = 9 then Color.from_hex_alpha l
  else
    let cs := l.filter (fun c => c ≠ ' ')
    if startsW ['r', 'g', 'b', '('] cs then Color.from_rgb_str cs
    else if startsW ['r', 'g', 'b', 'a', '('] cs then Color.from_rgba_str cs
    else if startsW ['h', 's', 'l', '('] cs then Color.from_hsl_str cs
    else if startsW ['h', 's', 'l', 'a'] cs then Color.from_hsla_str cs
    else if startsW ['h', 's', 'v', '('] cs then Color.from_hsv_str cs
    else if startsW ['c', 'm', 'y', 'k', '('] cs then Color.from_cmyk_str cs
    else .error .Format

/-- Uppercase hexadecimal digit characters (Rust `{:02X}`). -/
def hexDigitChar (n : ℕ) : Char :=
  (['0', '1', '2', '3', '4', '5', '6', '7', '8', '9', 'A', 'B', 'C', 'D', 'E', 'F']).getD n '0'

/-- Rust `{:02X}` of a byte: exactly two uppercase hex digits. -/
def hex2 (n : ℕ) : List Char := [hexDigitChar (n / 16), hexDigitChar (n % 16)]

/-- `Color::to_hex` (src/lib.rs:441-446): blend every channel against white
with the stored alpha, truncate to a byte, render as `#RRGGBB`. -/
def Color.to_hex (c : Color) : String :=
  ⟨'#' :: (hex2 (toU8 (calc_rgb_with_alpha c.r c.a)) ++
           hex2 (toU8 (calc_rgb_with_alpha c.g c.a)) ++
           hex2 (toU8 (calc_rgb_with_alpha c.b c.a)))⟩

/-- Decimal digits of a natural number (fuel-based so that it reduces in the
kernel). -/
def natReprAux : ℕ → ℕ → List Char → List Char
  | 0, _, acc => acc
  | fuel + 1, n, acc =>
    if n < 10 then hexDigitChar n :: acc
    else natReprAux fuel (n / 10) (hexDigitChar (n % 10) :: acc)

/-- Decimal representation of a natural number (Rust integer `Display`). -/
def natRepr (n : ℕ) : List Char := natReprAux (n + 1) n []

/-- Rust `{:.0}` formatting of a nonnegative `f32`: round the exact value to
the nearest integer, ties to even. -/
def fmt0 (q : ℚ) : List Char := natRepr (rne q).toNat

/-- Digits of `|q|` rounded to one decimal place (ties to even). -/
def fmt1Abs (q : ℚ) : List Char :=
  let m := (rne (q * 10)).toNat
  natRepr (m / 10) ++ '.' :: [hexDigitChar (m % 10)]

/-- Rust `{:.1}` formatting of an `f32`: exactly one decimal place, rounding
the exact value, ties to even. -/
def fmt1 (q : ℚ) : List Char :=
  if q < 0 then '-' :: fmt1Abs (-q) else fmt1Abs q

/-- `Color::to_hsl_val` (src/lib.rs:520-557): RGB→HSL on either the
alpha-blended or the raw channels; the hue is rounded half-away-from-zero
and cast to `u32`. -/
def Color.to_hsl_val (c : Color) (withAlpha : Bool) : ℕ × ℚ × ℚ :=
  let rgb : ℚ × ℚ × ℚ :=
    if withAlpha then
      (fdiv (calc_rgb_with_alpha c.r c.a) 255,
       fdiv (calc_rgb_with_alpha c.g c.a) 255,
       fdiv (calc_rgb_with_alpha c.b c.a) 255)
    else
      (fdiv (c.r : ℚ) 255, fdiv (c.g : ℚ) 255, fdiv (c.b : ℚ) 255)
  let r := rgb.1
  let g := rgb.2.1
  let b := rgb.2.2
  let cmax := qmax (qmax r g) b
  let cmin := qmin (qmin r g) b
  let delta := fsub cmax cmin
  let h0 : ℚ :=
    if delta = 0 then 0
    else if cmax = r then fmul 60 (frem (fdiv (fsub g b) delta) 6)
    else if cmax = g then fmul 60 (fadd (fdiv (fsub b r) delta) 2)
    else fmul 60 (fadd (fdiv (fsub r g) delta) 4)
  let h1 := if h0 < 0 then fadd h0 360 else h0
  let lv := fdiv (fadd cmax cmin) 2
  let sv : ℚ :=
    if delta = 0 then 0 else fdiv delta (fsub 1 (qabs (fsub (fmul 2 lv) 1)))
  ((roundHalfAway h1).toNat, sv, lv)

/-- `Color::to_hsla` (src/lib.rs:587-590): HSL from the RAW channels
(`to_hsl_val(false)`), formatted as `hsla({:.0},{:.0}%,{:.0}%,{:.1})`. -/
def Color.to_hsla (c : Color) : String :=
  let hsl := c.to_hsl_val false
  ⟨['h', 's', 'l', 'a', '('] ++ natRepr hsl.1 ++
   ',' :: fmt0 (fmul hsl.2.1 100) ++ '%' :: ',' :: fmt0 (fmul hsl.2.2 100) ++
   '%' :: ',' :: fmt1 c.a ++ [')']⟩

/-- `Color::negate` (src/lib.rs:690-696). -/
def Color.negate (c : Color) : Color :=
  ⟨255 - c.r, 255 - c.g, 255 - c.b, fsub 1 c.a⟩

/-- `Color::fade` (src/lib.rs:712-716). -/
def Color.fade (c : Color) (ratio : ℚ) : Color :=
  let rt := qmin (qmax ratio 0) 1
  { c with a := fdiv ((roundHalfAway (fmul (fsub c.a (fmul c.a rt)) 100) : ℤ) : ℚ) 100 }

/-- `Color::opaquer` (src/lib.rs:734-738). -/
def Color.opaquer (c : Color) (ratio : ℚ) : Color :=
  let rt := qmin (qmax ratio 0) 1
  { c with a := fdiv ((roundHalfAway (fmul (qmin (fadd c.a (fmul c.a rt)) 1) 100) : ℤ) : ℚ) 100 }

/-- The HSL triple computed from the raw (unblended) channels, exactly as
the claim describes `to_hsla`'s source of truth: it takes only `r`, `g`,
`b` — never the stored alpha — and rounds the hue to the nearest integer
(half away from zero, as `f32::round` does). -/
def rawHslVal (r g b : ℕ) : ℕ × ℚ × ℚ :=
  let rq := fdiv (r : ℚ) 255
  let gq := fdiv (g : ℚ) 255
  let bq := fdiv (b : ℚ) 255
  let cmax := qmax (qmax rq gq) bq
  let cmin := qmin (qmin rq gq) bq
  let delta := fsub cmax cmin
  let h0 : ℚ :=
    if delta = 0 then 0
    else if cmax = rq then fmul 60 (frem (fdiv (fsub gq bq) delta) 6)
    else if cmax = gq then fmul 60 (fadd (fdiv (fsub bq rq) delta) 2)
    else fmul 60 (fadd (fdiv (fsub rq gq) delta) 4)
  let h1 := if h0 < 0 then fadd h0 360 else h0
  let lv := fdiv (fadd cmax cmin) 2
  let sv : ℚ :=
    if delta = 0 then 0 else fdiv delta (fsub 1 (qabs (fsub (fmul 2 lv) 1)))
  ((roundHalfAway h1).toNat, sv, lv)

unseal Rat.mul Rat.inv Rat.add Rat.sub in
/-- C1: the claim says an accepted `rgba(r,g,b,a)` string yields a color
whose alpha is the float value of the FOURTH captured token.  The code
instead reads capture group 3 (the blue token) for the alpha, so
`rgba(1,2,3,0.5)` parses to alpha `3.0`, not `0.5`: the fourth token is
captured and discarded. -/
theorem C1_rgba_alpha_from_blue_token :
    Color.fromStr "rgba(1,2,3,0.5)".toList = .ok ⟨1, 2, 3, 3⟩ ∧
    Color.from_rgba_str "rgba(1,2,3,0.5)".toList = .ok ⟨1, 2, 3, 3⟩ := by
  exact ⟨by decide, by decide⟩

unseal Rat.mul Rat.inv Rat.add Rat.sub in
/-- C2: the claim says the AA pair of `#XXYYZZAA` is hex-decoded to 0–255
and divided by 255.0.  The code decimal-parses the pair with
`match_to_num2` and then computes `(v / 255_u8) as f32`, a `u8` integer
division that is 0 for every two-digit value — so `#ff00aa80` yields alpha
`0.0` (not 128/255), and a pair with hex letters such as `ff` is a Format
error. -/
theorem C2_hex_alpha_u8_division :
    Color.fromStr "#ff00aa80".toList = .ok ⟨255, 0, 170, 0⟩ ∧
    Color.from_hex_alpha "#ff00aa80".toList = .ok ⟨255, 0, 170, 0⟩ ∧
    Color.from_hex_alpha "#ff00aaff".toList = .error .Format := by
  exact ⟨by decide, by decide, by decide⟩

unseal Rat.mul Rat.inv Rat.add Rat.sub in
/-- C3 (counterexample): the claim asserts the alpha is restored by a double
`negate()` whenever the original alpha lies in `[0,1]`.  For the exactly
representable `f32` alpha `2⁻²⁵ ∈ [0,1]`, `1.0 - 2⁻²⁵` rounds (ties to
even) to `1.0`, so the double negation yields alpha `0`. -/
theorem C3_alpha_not_restored_in_unit_interval :
    (0 : ℚ) ≤ 1/2^25 ∧ (1 : ℚ)/2^25 ≤ 1 ∧ round32 (1/2^25) = 1/2^25 ∧
    (Color.negate (Color.negate ⟨5, 6, 7, 1/2^25⟩)).a = 0 ∧
    (0 : ℚ) ≠ 1/2^25 := by
  refine ⟨by decide, by decide, by decide, by decide, by decide⟩

/-- C3 (amended): a double `negate()` always restores the three RGB byte
channels, and restores the alpha whenever the stored alpha and `1.0 - alpha`
are both computed exactly in binary32 (no rounding), which in particular
covers every alpha of the form k/2²⁴ in `[0,1]`. -/
theorem C3_negate_negate_restores (c : Color)
    (hr : c.r ≤ 255) (hg : c.g ≤ 255) (hb : c.b ≤ 255)
    (ha : round32 c.a = c.a) (ha' : round32 (1 - c.a) = 1 - c.a) :
    Color.negate (Color.negate c) = c := by
  obtain ⟨r, g, b, a⟩ := c
  simp only [Color.negate, fsub] at *
  have h1 : round32 (1 - a) = 1 - a := ha'
  rw [h1]
  have h2 : (1 : ℚ) - (1 - a) = a := by ring
  rw [h2, ha, Color.mk.injEq]
  refine ⟨by omega, by omega, by omega, rfl⟩

unseal Rat.mul Rat.inv Rat.add Rat.sub in
/-- C3 (witness for the amended theorem at alpha 1/2). -/
theorem C3_witness :
    Color.negate (Color.negate ⟨1, 2, 3, 1/2⟩) = ⟨1, 2, 3, 1/2⟩ :=
  C3_negate_negate_restores ⟨1, 2, 3, 1/2⟩ (by decide) (by decide) (by decide)
    (by decide) (by decide)

unseal Rat.mul Rat.inv Rat.add Rat.sub in
/-- C5: `to_hex` blends every stored channel against a white background as
`channel·alpha + 255·(1−alpha)` (in `f32`), truncates each blended value to
a byte, and formats `#RRGGBB` with exactly two uppercase hex digits per
channel (total length 7); in particular, `set_alpha(0.5)` on the color
parsed from `#ff00aa` renders as `#FF7FD4`. -/
theorem C5_to_hex_white_blend :
    (∀ c : Color,
      Color.to_hex c =
        String.mk ('#' ::
          (hex2 (toU8 (fadd (fmul (c.r : ℚ) c.a) (fmul 255 (fsub 1 c.a)))) ++
           hex2 (toU8 (fadd (fmul (c.g : ℚ) c.a) (fmul 255 (fsub 1 c.a)))) ++
           hex2 (toU8 (fadd (fmul (c.b : ℚ) c.a) (fmul 255 (fsub 1 c.a)))))) ∧
      (Color.to_hex c).length = 7) ∧
    (Color.fromStr "#ff00aa".toList).map (fun c0 => Color.to_hex (c0.set_alpha (1/2)))
      = .ok "#FF7FD4" := by
  refine ⟨fun c => ⟨rfl, rfl⟩, by decide⟩

unseal Rat.mul Rat.inv Rat.add Rat.sub in
/-- C8: `fade` and `opaquer` clamp the ratio to `[0,1]`, leave the RGB
channels untouched and never fail, and set the alpha to
`round((a − a·ratio)·100)/100` resp. `round(min(a + a·ratio, 1)·100)/100`
in `f32` arithmetic; in particular `opaquer(0.5)` twice from alpha `0.3`
gives the `f32` values `0.45` and then `0.67`. -/
theorem C8_fade_opaquer_alpha :
    (∀ (c : Color) (ratio : ℚ),
      Color.fade c ratio =
        { c with a := fdiv ((roundHalfAway
            (fmul (fsub c.a (fmul c.a (qmin (qmax ratio 0) 1))) 100) : ℤ) : ℚ) 100 } ∧
      Color.opaquer c ratio =
        { c with a := fdiv ((roundHalfAway
            (fmul (qmin (fadd c.a (fmul c.a (qmin (qmax ratio 0) 1))) 1) 100) : ℤ) : ℚ) 100 } ∧
      (Color.fade c ratio).r = c.r ∧ (Color.fade c ratio).g = c.g ∧
      (Color.fade c ratio).b = c.b ∧ (Color.opaquer c ratio).r = c.r ∧
      (Color.opaquer c ratio).g = c.g ∧ (Color.opaquer c ratio).b = c.b) ∧
    (Color.opaquer ⟨0, 0, 0, round32 (3/10)⟩ (1/2)).a = round32 (45/100) ∧
    (Color.opaquer (Color.opaquer ⟨0, 0, 0, round32 (3/10)⟩ (1/2)) (1/2)).a
      = round32 (67/100) := by
  exact ⟨fun c ratio => ⟨rfl, rfl, rfl, rfl, rfl, rfl, rfl, rfl⟩, by decide, by decide⟩

/-- C9: `to_hsla` renders the HSL triple computed from the raw (unblended)
channels — `rawHslVal r g b` mentions neither the blend nor the alpha, so
the H/S%/L% output is independent of the stored alpha — with the hue
rounded to the nearest integer, saturation and lightness rounded (ties to
even, as Rust `{:.0}` does) to integer percents, and the stored alpha
printed with exactly one decimal place. -/
theorem C9_to_hsla_raw_channels (r g b : ℕ) (a : ℚ) :
    Color.to_hsla ⟨r, g, b, a⟩ =
      String.mk (['h', 's', 'l', 'a', '('] ++ natRepr (rawHslVal r g b).1 ++
        ',' :: fmt0 (fmul (rawHslVal r g b).2.1 100) ++ '%' :: ',' ::
        fmt0 (fmul (rawHslVal r g b).2.2 100) ++ '%' :: ',' :: fmt1 a ++ [')']) ∧
    Color.to_hsl_val ⟨r, g, b, a⟩ false = rawHslVal r g b ∧
    (∀ a' : ℚ, Color.to_hsl_val ⟨r, g, b, a⟩ false = Color.to_hsl_val ⟨r, g, b, a'⟩ false) := by
  exact ⟨rfl, rfl, fun a' => rfl⟩

unseal Rat.mul Rat.inv Rat.add Rat.sub in
/-- C6: `from_hsl` computes chroma `c = (1−|2l−1|)·s`, secondary
`x = c·(1−|((h/60) mod 2)−1|)` and offset `m = l−c/2` (all in `f32`),
selects the `(r,g,b)` triple by the six 60°-wide hue sectors, adds `m`,
scales by 255 and truncates (not rounds) each component to a byte, with
alpha `1.0`; in particular `from_hsl(210, 0.79, 0.30)` renders as
`#104C88`. -/
theorem C6_from_hsl_sector_formula :
    (∀ (h : ℕ) (s l : ℚ), h < 360 → 0 ≤ s → s ≤ 1 → 0 ≤ l → l ≤ 1 →
      Color.from_hsl h s l =
        (let c := fmul (fsub 1 (qabs (fsub (fmul l 2) 1))) s
         let x := fmul c (fsub 1 (qabs (fsub (frem (fdiv (h : ℚ) 60) 2) 1)))
         let m := fsub l (fdiv c 2)
         let rgb : ℚ × ℚ × ℚ :=
           if h < 60 then (c, x, 0)
           else if 60 ≤ h ∧ h < 120 then (x, c, 0)
           else if 120 ≤ h ∧ h < 180 then (0, c, x)
           else if 180 ≤ h ∧ h < 240 then (0, x, c)
           else if 240 ≤ h ∧ h < 300 then (x, 0, c)
           else if 300 ≤ h ∧ h < 360 then (c, 0, x)
           else (0, 0, 0)
         Except.ok ⟨toU8 (fmul (fadd rgb.1 m) 255), toU8 (fmul (fadd rgb.2.1 m) 255),
                    toU8 (fmul (fadd rgb.2.2 m) 255), 1⟩)) ∧
    (Color.from_hsl 210 (round32 (79/100)) (round32 (3/10))).map Color.to_hex
      = .ok "#104C88" := by
  constructor
  · intro h s l hh hs0 hs1 hl0 hl1
    unfold Color.from_hsl
    rw [if_neg]
    rintro (hc | hc | hc)
    · exact hc ⟨hs0, hs1⟩
    · exact hc ⟨hl0, hl1⟩
    · exact hc hh
  · decide

unseal Rat.mul Rat.inv Rat.add Rat.sub in
/-- C6 witness: the sector formula applied at `h = 210`, `s = 0.79f32`,
`l = 0.3f32` gives the color bytes `(16, 76, 136)` = `#104C88`. -/
theorem C6_witness :
    Color.from_hsl 210 (round32 (79/100)) (round32 (3/10)) = .ok ⟨16, 76, 136, 1⟩ := by
  have h := C6_from_hsl_sector_formula.1 210 (round32 (79/100)) (round32 (3/10))
    (by decide) (by decide) (by decide) (by decide) (by decide)
  rw [h]
  decide

unseal Rat.mul Rat.inv Rat.add Rat.sub in
/-- C7: `from_rgba` returns a Value error exactly when the alpha is outside
`[0,1]` and otherwise succeeds for every byte triple, while `from_hsla`
(valid `h`, `s`, `l`) succeeds for EVERY alpha, storing it unchecked. -/
theorem C7_from_rgba_from_hsla_alpha :
    (∀ (r g b : ℕ) (a : ℚ),
      (Color.from_rgba r g b a = .error .Value ↔ ¬(0 ≤ a ∧ a ≤ 1)) ∧
      (0 ≤ a → a ≤ 1 → Color.from_rgba r g b a = .ok ⟨r, g, b, a⟩)) ∧
    (∀ (h : ℕ) (s l a : ℚ), h < 360 → 0 ≤ s → s ≤ 1 → 0 ≤ l → l ≤ 1 →
      ∃ c : Color, Color.from_hsla h s l a = .ok c ∧ c.a = a) := by
  constructor
  · intro r g b a
    constructor
    · unfold Color.from_rgba is_valid_num
      by_cases hva : 0 ≤ a ∧ a ≤ 1
      · rw [if_neg (fun hn => hn hva)]
        simp [hva]
      · rw [if_pos hva]
        simp [hva]
    · intro h0 h1
      unfold Color.from_rgba
      rw [if_neg (fun hn => hn ⟨h0, h1⟩)]
  · intro h s l a hh hs0 hs1 hl0 hl1
    unfold Color.from_hsla
    cases hok : Color.from_hsl h s l with
    | error e =>
      exfalso
      unfold Color.from_hsl at hok
      rw [if_neg] at hok
      · exact absurd hok (by simp)
      · rintro (hc | hc | hc)
        · exact hc ⟨hs0, hs1⟩
        · exact hc ⟨hl0, hl1⟩
        · exact hc hh
    | ok c =>
      exact ⟨c.set_alpha a, rfl, rfl⟩

unseal Rat.mul Rat.inv Rat.add Rat.sub in
/-- C7 witness: `from_rgba` rejects alpha 5 and accepts alpha 0.5;
`from_hsla` accepts the out-of-range alpha 5 and stores it unchanged. -/
theorem C7_witness :
    Color.from_rgba 1 2 3 5 = .error .Value ∧
    Color.from_rgba 1 2 3 (1/2) = .ok ⟨1, 2, 3, 1/2⟩ ∧
    ∃ c : Color, Color.from_hsla 210 (1/2) (1/2) 5 = .ok c ∧ c.a = 5 :=
  ⟨(C7_from_rgba_from_hsla_alpha.1 1 2 3 5).1.mpr (by decide),
   (C7_from_rgba_from_hsla_alpha.1 1 2 3 (1/2)).2 (by decide) (by decide),
   C7_from_rgba_from_hsla_alpha.2 210 (1/2) (1/2) 5 (by decide) (by decide)
     (by decide) (by decide) (by decide)⟩

theorem chomp_append (p r : List Char) : chomp p (p ++ r) = some r := by
  induction p with
  | nil => rfl
  | cons c cs ih => simp [chomp, ih]

theorem filter_eq_self_of_all (p : Char → Bool) :
    ∀ l : List Char, (∀ a ∈ l, p a = true) → l.filter p = l := by
  intro l
  induction l with
  | nil => intro _; rfl
  | cons x xs ih =>
    intro h
    have hx := h x (by simp)
    have hxs := ih (fun a ha => h a (by simp [ha]))
    simp [List.filter_cons, hx, hxs]

theorem takeWhile_append_stop (p : Char → Bool) (c : Char) (hc : p c = false)
    (r : List Char) :
    ∀ t : List Char, t.all p = true →
      (t ++ c :: r).takeWhile p = t ∧ (t ++ c :: r).dropWhile p = c :: r := by
  intro t
  induction t with
  | nil =>
    intro _
    constructor
    · simp [List.takeWhile_cons, hc]
    · simp [List.dropWhile_cons, hc]
  | cons x xs ih =>
    intro ht
    simp only [List.all_cons, Bool.and_eq_true] at ht
    have h2 := ih ht.2
    constructor
    · simp [List.takeWhile_cons, ht.1, h2.1]
    · simp [List.dropWhile_cons, ht.1, h2.2]

theorem num1_append_stop (t : List Char) (hne : t ≠ []) (hd : t.all isDigitC = true)
    (c : Char) (hc : isDigitC c = false) (r : List Char) :
    num1 (t ++ c :: r) = some (t, c :: r) := by
  have h := takeWhile_append_stop isDigitC c hc r t hd
  unfold num1
  rw [h.1, h.2]
  cases t with
  | nil => exact absurd rfl hne
  | cons x xs => rfl

theorem match_to_num2_overflow (t : List Char) (h : 255 < decVal t) :
    match_to_num2 t = none := by
  unfold match_to_num2
  rw [if_neg]
  rintro ⟨-, -, hle⟩
  omega

theorem isDigitC_ne_space (a : Char) (h : isDigitC a = true) : a ≠ ' ' := by
  intro he
  subst he
  exact absurd h (by decide)

theorem rgbCaps_tokens (t1 t2 t3 : List Char)
    (h1 : t1 ≠ []) (hd1 : t1.all isDigitC = true)
    (h2 : t2 ≠ []) (hd2 : t2.all isDigitC = true)
    (h3 : t3 ≠ []) (hd3 : t3.all isDigitC = true) :
    rgbCaps (['r', 'g', 'b', '('] ++ (t1 ++ ',' :: (t2 ++ ',' :: (t3 ++ [')'])))) =
      some (t1, t2, t3) := by
  unfold rgbCaps
  rw [chomp_append]
  dsimp only
  rw [num1_append_stop t1 h1 hd1 ',' (by decide) _]
  dsimp only
  rw [show expectC ',' (',' :: (t2 ++ ',' :: (t3 ++ [')']))) =
        some (t2 ++ ',' :: (t3 ++ [')'])) from rfl]
  dsimp only
  rw [num1_append_stop t2 h2 hd2 ',' (by decide) _]
  dsimp only
  rw [show expectC ',' (',' :: (t3 ++ [')'])) = some (t3 ++ [')']) from rfl]
  dsimp only
  rw [num1_append_stop t3 h3 hd3 ')' (by decide) []]
  dsimp only
  rfl

/-- C4: any string that starts with `#` whose length is not 4, 7 or 9 is a
Format error — after the hash branches fall through, the space-stripped
string still starts with `#` and so matches none of the scheme grammars —
while lengths 4 and 7 dispatch to `from_hex` and length 9 to
`from_hex_alpha`. -/
theorem C4_hash_dispatch (l : List Char) (hh : l.head? = some '#') :
    (l.length ≠ 4 ∧ l.length ≠ 7 ∧ l.length ≠ 9 →
      Color.fromStr l = .error .Format) ∧
    ((l.length = 4 ∨ l.length = 7) → Color.fromStr l = Color.from_hex l) ∧
    (l.length = 9 → Color.fromStr l = Color.from_hex_alpha l) := by
  cases l with
  | nil => simp at hh
  | cons c t =>
    have hc : c = '#' := by simpa using hh
    subst hc
    refine ⟨?_, ?_, ?_⟩
    · rintro ⟨h4, h7, h9⟩
      unfold Color.fromStr
      rw [if_neg (by rintro ⟨-, h | h⟩; exacts [h4 h, h7 h]),
          if_neg (by rintro ⟨-, h⟩; exact h9 h)]
      rfl
    · intro h47
      unfold Color.fromStr
      rw [if_pos ⟨rfl, h47⟩]
    · intro h9
      unfold Color.fromStr
      rw [if_neg (by rintro ⟨-, h | h⟩ <;> omega), if_pos ⟨rfl, h9⟩]

/-- C4 witness: `#12345` (length 6) is a Format error; `#f0a` (length 4)
dispatches to `from_hex`; `#ff00aa80` (length 9) dispatches to
`from_hex_alpha`. -/
theorem C4_witness :
    Color.fromStr "#12345".toList = .error .Format ∧
    Color.fromStr "#f0a".toList = Color.from_hex "#f0a".toList ∧
    Color.fromStr "#ff00aa80".toList = Color.from_hex_alpha "#ff00aa80".toList :=
  ⟨(C4_hash_dispatch "#12345".toList (by decide)).1 (by decide),
   (C4_hash_dispatch "#f0a".toList (by decide)).2.1 (by decide),
   (C4_hash_dispatch "#ff00aa80".toList (by decide)).2.2 (by decide)⟩

/-- C10: an `rgb(d,d,d)` string in which some channel token's decimal value
exceeds 255 is a Format error (not a Value error), both through
`from_rgb_str` and through `Color::from`: the token is decoded with
`parse::<u8>()` and the decode failure is treated as a grammar mismatch. -/
theorem C10_rgb_channel_overflow (t1 t2 t3 : List Char)
    (h1 : t1 ≠ []) (hd1 : t1.all isDigitC = true)
    (h2 : t2 ≠ []) (hd2 : t2.all isDigitC = true)
    (h3 : t3 ≠ []) (hd3 : t3.all isDigitC = true)
    (hover : 255 < decVal t1 ∨ 255 < decVal t2 ∨ 255 < decVal t3) :
    Color.from_rgb_str (['r', 'g', 'b', '('] ++ (t1 ++ ',' :: (t2 ++ ',' :: (t3 ++ [')']))))
      = .error .Format ∧
    Color.fromStr (['r', 'g', 'b', '('] ++ (t1 ++ ',' :: (t2 ++ ',' :: (t3 ++ [')']))))
      = .error .Format := by
  have hcaps := rgbCaps_tokens t1 t2 t3 h1 hd1 h2 hd2 h3 hd3
  have hrgb : Color.from_rgb_str
      (['r', 'g', 'b', '('] ++ (t1 ++ ',' :: (t2 ++ ',' :: (t3 ++ [')'])))) = .error .Format := by
    unfold Color.from_rgb_str
    rw [hcaps]
    dsimp only
    rcases hover with ho | ho | ho
    · rw [match_to_num2_overflow t1 ho]
    · rw [match_to_num2_overflow t2 ho]
      cases match_to_num2 t1 <;> cases match_to_num2 t3 <;> rfl
    · rw [match_to_num2_overflow t3 ho]
      cases match_to_num2 t1 <;> cases match_to_num2 t2 <;> rfl
  refine ⟨hrgb, ?_⟩
  have hfil : (['r', 'g', 'b', '('] ++ (t1 ++ ',' :: (t2 ++ ',' :: (t3 ++ [')'])))).filter
      (fun c => c ≠ ' ') = ['r', 'g', 'b', '('] ++ (t1 ++ ',' :: (t2 ++ ',' :: (t3 ++ [')']))) := by
    apply filter_eq_self_of_all
    intro a ha
    simp only [List.mem_append, List.mem_cons, List.mem_singleton] at ha
    have hdig : ∀ {tk : List Char}, tk.all isDigitC = true → a ∈ tk →
        decide (a ≠ ' ') = true := by
      intro tk hall hmem
      exact decide_eq_true (isDigitC_ne_space a (List.all_eq_true.mp hall a hmem))
    rcases ha with (rfl | rfl | rfl | rfl | h) | ha
    · decide
    · decide
    · decide
    · decide
    · simp at h
    · rcases ha with ha | rfl | ha
      · exact hdig hd1 ha
      · decide
      · rcases ha with ha | rfl | ha
        · exact hdig hd2 ha
        · decide
        · rcases ha with ha | rfl | h
          · exact hdig hd3 ha
          · decide
          · simp at h
  unfold Color.fromStr
  rw [if_neg (by
        rintro ⟨hc, -⟩
        simp only [List.cons_append, List.head?_cons, Option.some.injEq] at hc
        exact absurd hc (by decide)),
      if_neg (by
        rintro ⟨hc, -⟩
        simp only [List.cons_append, List.head?_cons, Option.some.injEq] at hc
        exact absurd hc (by decide))]
  dsimp only
  rw [hfil]
  rw [if_pos (show startsW ['r', 'g', 'b', '(']
        (['r', 'g', 'b', '('] ++ (t1 ++ ',' :: (t2 ++ ',' :: (t3 ++ [')'])))) = true by
      unfold startsW; rw [chomp_append]; rfl)]
  exact hrgb

/-- C10 witness: `rgb(300,0,0)` is a Format error. -/
theorem C10_witness :
    Color.from_rgb_str "rgb(300,0,0)".toList = .error .Format ∧
    Color.fromStr "rgb(300,0,0)".toList = .error .Format :=
  C10_rgb_channel_overflow ['3', '0', '0'] ['0'] ['0'] (by decide) (by decide)
    (by decide) (by decide) (by decide) (by decide) (by decide)

/-!
Cross-checks of the embedding against the crate's own doc-tests and unit
tests (src/lib.rs:741-787 and the doc examples): each of the following
values is asserted by the Rust test suite, and the model reproduces it,
including the double-rounded alphas of the `fade`/`opaquer` chain.
-/

unseal Rat.mul Rat.inv Rat.add Rat.sub in
example : round32 (3/10) = 5033165/16777216 := by decide

unseal Rat.mul Rat.inv Rat.add Rat.sub in
example : Color.fromStr "#ff00aa".toList = .ok ⟨255, 0, 170, 1⟩ := by decide

unseal Rat.mul Rat.inv Rat.add Rat.sub in
example : Color.fromStr "#f0a".toList = .ok ⟨255, 0, 170, 1⟩ := by decide

unseal Rat.mul Rat.inv Rat.add Rat.sub in
example : Color.fromStr "rgb(129,45,78)".toList = .ok ⟨129, 45, 78, 1⟩ := by decide

unseal Rat.mul Rat.inv Rat.add Rat.sub in
example : Color.fromStr "rgba(129,45,78, 0.8)".toList = .ok ⟨129, 45, 78, 78⟩ := by decide

unseal Rat.mul Rat.inv Rat.add Rat.sub in
example : Color.to_hex ⟨255, 0, 0, 1⟩ = "#FF0000" := by decide

unseal Rat.mul Rat.inv Rat.add Rat.sub in
example : Color.to_hex ⟨0, 0, 0, 1/2⟩ = "#7F7F7F" := by decide

unseal Rat.mul Rat.inv Rat.add Rat.sub in
example : Color.to_hsla ⟨255, 0, 170, 1⟩ = "hsla(320,100%,50%,1.0)" := by decide

unseal Rat.mul Rat.inv Rat.add Rat.sub in
example : Color.to_hsla ⟨0, 0, 0, 1/2⟩ = "hsla(0,0%,0%,0.5)" := by decide

unseal Rat.mul Rat.inv Rat.add Rat.sub in
example : Color.to_hex (Color.fade ⟨255, 0, 170, 1/2⟩ (1/2)) = "#FFBFE9" := by decide

unseal Rat.mul Rat.inv Rat.add Rat.sub in
example : Color.to_hex (Color.opaquer (Color.fade ⟨255, 0, 170, 1/2⟩ (1/2)) (round32 (4/5))) = "#FF8CD8" := by decide
